import Mathlib

/-!
Verification of the `verysimplex` linear-programming repository.

The Rust sources (`src/problem.rs`, `src/tableau.rs`) are shallowly embedded
below.  `f64` values are modelled as exact rationals (`ℚ`); the claims under
study are about signs, copying and index bookkeeping, which exact arithmetic
models faithfully.  Fallible Rust functions returning `Result` are embedded as
`Except`.
-/

/-- Rust `Variable` (problem.rs): identity is the name string. -/
structure Variable where
  name : String
deriving DecidableEq, Repr

/-- Rust `LinearTerm` (problem.rs): `coefficient * variable`.
The Rust field `variable` is a Lean keyword, so it is named `var` here. -/
structure LinearTerm where
  var : Variable
  coefficient : ℚ
deriving DecidableEq, Repr

/-- Rust `LinearExpression` (problem.rs): an ordered list of terms. -/
structure LinearExpression where
  terms : List LinearTerm
deriving DecidableEq, Repr

/-- Rust `Relation` (problem.rs). -/
inductive Relation where
  | lessThanOrEqual
  | greaterThanOrEqual
  | lessThan
  | greaterThan
  | equal
deriving DecidableEq, Repr

/-- Rust `Constraint` (problem.rs). -/
structure Constraint where
  expression : LinearExpression
  relation : Relation
  rhs : ℚ
deriving DecidableEq, Repr

/-- Rust `ObjectiveType` (problem.rs). -/
inductive ObjectiveType where
  | minimize
  | maximize
deriving DecidableEq, Repr

/-- Rust `Objective` (problem.rs). -/
structure Objective where
  objective_type : ObjectiveType
  expression : LinearExpression
deriving DecidableEq, Repr

/-- Rust `Problem` (problem.rs): variable list, constraints, objective.
The Rust field `variables` collides with a reserved Lean token, so it is
named `vars` here. -/
structure Problem where
  vars : List Variable
  constraints : List Constraint
  objective : Objective
deriving DecidableEq, Repr

/-- Bool test: does variable `v` occur in a term of the constraints or the
objective?  This is the membership condition of the `HashSet` built by
`Problem::new` (problem.rs lines 394-417). -/
def occursIn (constraints : List Constraint) (objective : Objective) (v : Variable) : Bool :=
  constraints.any (fun c => c.expression.terms.any (fun t => t.var == v))
    || objective.expression.terms.any (fun t => t.var == v)

/-- The property that `order` is a possible iteration order of the `HashSet`
of unique variables built by `Problem::new`: it enumerates exactly the set of
occurring variables, each once.  The Rust code iterates a `std::collections::HashSet`
whose order depends on the hasher's per-instance random keys, so the source
determines only this set, not the order. -/
def IsHashIterationOrder (constraints : List Constraint) (objective : Objective)
    (order : List Variable) : Prop :=
  order.Nodup ∧ ∀ v : Variable, v ∈ order ↔ occursIn constraints objective v = true

/-- Rust `Problem::new` (problem.rs lines 394-417), with the `HashSet`
iteration order passed explicitly as `order` (see `IsHashIterationOrder`):
the resulting `variables` field is the unique-variable set in that order. -/
def Problem.new (constraints : List Constraint) (objective : Objective)
    (order : List Variable) : Problem :=
  Problem.mk order constraints objective

/-- Rust `Tableau` (tableau.rs): row-major flat data vector. -/
structure Tableau where
  row_count : Nat
  column_count : Nat
  data : List ℚ
deriving DecidableEq, Repr

/-- Rust `TableauError` (tableau.rs). -/
inductive TableauError where
  | vectorLengthMismatch
  | outOfBounds (row : Option Nat) (column : Option Nat)
deriving DecidableEq, Repr

/-- Rust `Tableau::new`: all entries `0.0`. -/
def Tableau.new (row_count column_count : Nat) : Tableau :=
  Tableau.mk row_count column_count (List.replicate (row_count * column_count) 0)

/-- Rust `Tableau::index`: flat index `row * column_count + col`. -/
def Tableau.index (t : Tableau) (row col : Nat) : Nat :=
  row * t.column_count + col

/-- Direct read of the flat data vector at `(row, col)` (the unchecked
`self.data[self.index(row, col)]` of the Rust code; the default `0` is never
reached on a well-formed tableau). -/
def Tableau.getD (t : Tableau) (row col : Nat) : ℚ :=
  t.data.getD (t.index row col) 0

/-- Rust `Tableau::get` (tableau.rs lines 117-126): bounds-checked read. -/
def Tableau.get (t : Tableau) (row col : Nat) : Except TableauError ℚ :=
  if row ≥ t.row_count then
    Except.error (TableauError.outOfBounds (some row) none)
  else if col ≥ t.column_count then
    Except.error (TableauError.outOfBounds none (some col))
  else
    Except.ok (t.getD row col)

/-- Rust `Tableau::set` (tableau.rs lines 138-149): bounds-checked write. -/
def Tableau.set (t : Tableau) (row col : Nat) (value : ℚ) : Except TableauError Tableau :=
  if row ≥ t.row_count then
    Except.error (TableauError.outOfBounds (some row) none)
  else if col ≥ t.column_count then
    Except.error (TableauError.outOfBounds none (some col))
  else
    Except.ok (Tableau.mk t.row_count t.column_count (t.data.set (t.index row col) value))

/-- Rust `Tableau::is_empty` (tableau.rs lines 444-446). -/
def Tableau.is_empty (t : Tableau) : Bool :=
  t.row_count == 0 || t.column_count == 0

/-- Rust `Tableau::is_feasible` (tableau.rs lines 405-417): false on an empty
tableau, otherwise false iff some row (the loop runs over ALL rows, the
objective row included) has a negative last-column entry. -/
def Tableau.is_feasible (t : Tableau) : Bool :=
  if t.is_empty then false
  else (List.range t.row_count).all
    (fun row => !decide (t.getD row (t.column_count - 1) < 0))

/-- Rust `Tableau::is_optimal` (tableau.rs lines 425-437): false on an empty
tableau, otherwise false iff some column (the loop runs over ALL columns, the
right-hand-side column included) has a negative last-row entry. -/
def Tableau.is_optimal (t : Tableau) : Bool :=
  if t.is_empty then false
  else (List.range t.column_count).all
    (fun col => !decide (t.getD (t.row_count - 1) col < 0))

/-- Rust `Tableau::get_objective_value` (tableau.rs lines 391-397). -/
def Tableau.get_objective_value (t : Tableau) : Option ℚ :=
  if t.is_empty then none
  else some (t.getD (t.row_count - 1) (t.column_count - 1))

/-- The multiplier applied to constraint coefficients in
`Tableau::from_problem` (tableau.rs lines 68-74). -/
def relationMultiplier : Relation → ℚ
  | Relation.lessThan => 1
  | Relation.lessThanOrEqual => 1
  | Relation.greaterThan => -1
  | Relation.greaterThanOrEqual => -1
  | Relation.equal => 1

/-- The objective normalization multiplier of `Tableau::from_problem`
(tableau.rs lines 88-91). -/
def objectiveMultiplier : ObjectiveType → ℚ
  | ObjectiveType.maximize => 1
  | ObjectiveType.minimize => -1

/-- The inner term loop of `Tableau::from_problem` (tableau.rs lines 77-81 and
95-100): for each term, look up the variable's first index in the problem's
variable list and `set` the cell `(row, index)` to `coefficient * mult`
(skipping terms whose variable is absent).  Later terms on the same variable
overwrite earlier ones, exactly as the repeated `tableau.set` does in Rust. -/
def setRowTerms (vars : List Variable) (mult : ℚ) :
    List LinearTerm → Tableau → Nat → Except TableauError Tableau
  | [], t, _ => Except.ok t
  | term :: rest, t, row =>
    match List.findIdx? (fun v => v == term.var) vars with
    | some variable_index =>
      match t.set row variable_index (term.coefficient * mult) with
      | Except.ok t1 => setRowTerms vars mult rest t1 row
      | Except.error e => Except.error e
    | none => setRowTerms vars mult rest t row

/-- The constraint loop of `Tableau::from_problem` (tableau.rs lines 67-85):
for each constraint, write its (multiplied) coefficients into row `i`, then
write its right-hand side, unchanged, into the last column. -/
def setConstraintRows (vars : List Variable) (column_count : Nat) :
    List Constraint → Tableau → Nat → Except TableauError Tableau
  | [], t, _ => Except.ok t
  | c :: rest, t, i =>
    match setRowTerms vars (relationMultiplier c.relation) c.expression.terms t i with
    | Except.ok t1 =>
      match t1.set i (column_count - 1) c.rhs with
      | Except.ok t2 => setConstraintRows vars column_count rest t2 (i + 1)
      | Except.error e => Except.error e
    | Except.error e => Except.error e

/-- Rust `Tableau::from_problem` (tableau.rs lines 56-106). -/
def Tableau.from_problem (problem : Problem) : Except TableauError Tableau := do
  let row_count := problem.constraints.length + 1
  let column_count := problem.vars.length + 1
  let t0 := Tableau.new row_count column_count
  let t1 ← setConstraintRows problem.vars column_count problem.constraints t0 0
  let last_row := row_count - 1
  let t2 ← setRowTerms problem.vars
    (-1 * objectiveMultiplier problem.objective.objective_type)
    problem.objective.expression.terms t1 last_row
  t2.set last_row (column_count - 1) 0

/-- Modelled from the spec: the repository has no pivot implementation
(`Tableau::pivot` of spec §4.3 is absent from src/), so the pivot primitive is
modelled from the spec's algorithm: normalize a temporary copy of the pivot
row by the pivot entry, then subtract `matrix[r][column] *` (normalized pivot
row) from every other row `r`, the objective row included. -/
def Tableau.pivot (t : Tableau) (row col : Nat) : Tableau :=
  let p := t.getD row col
  Tableau.mk t.row_count t.column_count
    ((List.range (t.row_count * t.column_count)).map (fun idx =>
      let r := idx / t.column_count
      let c := idx % t.column_count
      if r = row then t.getD row c / p
      else t.getD r c - t.getD r col * (t.getD row c / p)))

/-- Modelled from the spec: the basis update performed by the pivot
(spec §4.3 step 4, `Basis[row] = column`); the repository has no basis
bookkeeping in src/. -/
def pivotBasis (basis : List Nat) (row col : Nat) : List Nat :=
  basis.set row col

/-- Well-formedness of a tableau: the flat data vector has exactly
`row_count * column_count` entries.  `Tableau::new` establishes this and
`Tableau::set` preserves it. -/
def Tableau.WF (t : Tableau) : Prop :=
  t.data.length = t.row_count * t.column_count

/-- Reference description of what the term loop leaves in column `c` of the
written row, starting from the old cell value: the last term whose variable's
first index is `c` wins (this is the overwrite semantics of the source). -/
def rowTermsCell (vars : List Variable) (mult : ℚ) :
    List LinearTerm → Nat → ℚ → ℚ
  | [], _, old => old
  | term :: rest, c, old =>
    rowTermsCell vars mult rest c
      (if List.findIdx? (fun v => v == term.var) vars = some c then
        term.coefficient * mult
      else old)

/-- The coefficient of the last term on variable `x` in a term list, with a
default for when no term mentions `x`. -/
def lastCoeffOn : List LinearTerm → Variable → ℚ → ℚ
  | [], _, old => old
  | term :: rest, x, old =>
    lastCoeffOn rest x (if term.var = x then term.coefficient else old)

/-- Concrete variable `x` used by the example inputs below. -/
def vx : Variable := Variable.mk "x"

/-- Concrete variable `y` used by the example inputs below. -/
def vy : Variable := Variable.mk "y"

/-- Example problem for C1: one variable, one `<=` constraint (`x <= 1`,
maximize `x`).  The spec's transformer would append one slack column. -/
def exC1 : Problem :=
  Problem.mk [vx]
    [Constraint.mk (LinearExpression.mk [LinearTerm.mk vx 1]) Relation.lessThanOrEqual 1]
    (Objective.mk ObjectiveType.maximize (LinearExpression.mk [LinearTerm.mk vx 1]))

/-- Example problem for C3: `x <= -1` (negative right-hand side), maximize `x`. -/
def exC3 : Problem :=
  Problem.mk [vx]
    [Constraint.mk (LinearExpression.mk [LinearTerm.mk vx 1]) Relation.lessThanOrEqual (-1)]
    (Objective.mk ObjectiveType.maximize (LinearExpression.mk [LinearTerm.mk vx 1]))

/-- Example tableau for C4: two rows, two columns, data `[0, 1, 0, -1]`.
The constraint row's rhs is `1 ≥ 0` but the objective row's rhs is `-1`. -/
def exT4 : Tableau := Tableau.mk 2 2 [0, 1, 0, -1]

/-- Example tableau for C5: one row (the objective row), two columns, data
`[0, -1]`.  Every objective-row entry except the rhs is `≥ 0`, the rhs is
`-1`. -/
def exT5 : Tableau := Tableau.mk 1 2 [0, -1]

/-- Example problem for C6: the constraint `1*x + 2*x <= 3` mentions `x`
twice; the summed coefficient would be `3`. -/
def exC6 : Problem :=
  Problem.mk [vx]
    [Constraint.mk (LinearExpression.mk [LinearTerm.mk vx 1, LinearTerm.mk vx 2])
      Relation.lessThanOrEqual 3]
    (Objective.mk ObjectiveType.maximize (LinearExpression.mk [LinearTerm.mk vx 1]))

/-- Example constraints for C7: `x + y <= 2`. -/
def exC7cs : List Constraint :=
  [Constraint.mk (LinearExpression.mk [LinearTerm.mk vx 1, LinearTerm.mk vy 1])
    Relation.lessThanOrEqual 2]

/-- Example objective for C7: maximize `x`. -/
def exC7obj : Objective :=
  Objective.mk ObjectiveType.maximize (LinearExpression.mk [LinearTerm.mk vx 1])

/-- Example problem for C8's counterexample: maximize `1*x + 2*x` (the
variable occurs in two objective terms, summed coefficient `3`). -/
def exC8 : Problem :=
  Problem.mk [vx] []
    (Objective.mk ObjectiveType.maximize
      (LinearExpression.mk [LinearTerm.mk vx 1, LinearTerm.mk vx 2]))

/-- Example problem for C8's witness: maximize `5*x`, no constraints. -/
def exC8w : Problem :=
  Problem.mk [vx] []
    (Objective.mk ObjectiveType.maximize (LinearExpression.mk [LinearTerm.mk vx 5]))

/-- Example tableau for C2's witness. -/
def exT2 : Tableau := Tableau.mk 2 2 [2, 4, 1, 3]
theorem index_lt_of_lt {R C r c : Nat} (hr : r < R) (hc : c < C) : r * C + c < R * C := by
  calc r * C + c < r * C + C := by omega
    _ = (r + 1) * C := by ring
    _ ≤ R * C := Nat.mul_le_mul_right C hr

theorem index_inj {C r c r' c' : Nat} (hc : c < C) (hc' : c' < C)
    (h : r * C + c = r' * C + c') : r = r' ∧ c = c' := by
  have hC : 0 < C := Nat.lt_of_le_of_lt (Nat.zero_le c) hc
  rw [Nat.mul_comm r C, Nat.mul_comm r' C] at h
  have h1 : c = c' := by
    have hm := congrArg (fun n => n % C) h
    simpa [Nat.mul_add_mod, Nat.mod_eq_of_lt hc, Nat.mod_eq_of_lt hc'] using hm
  have h2 : r = r' := by
    have hd := congrArg (fun n => n / C) h
    simpa [Nat.mul_add_div hC, Nat.div_eq_of_lt hc, Nat.div_eq_of_lt hc'] using hd
  exact ⟨h2, h1⟩

theorem Tableau.new_WF (R C : Nat) : (Tableau.new R C).WF := by
  simp [Tableau.new, Tableau.WF]

theorem Tableau.new_getD (R C r c : Nat) : (Tableau.new R C).getD r c = 0 := by
  simp only [Tableau.new, Tableau.getD, Tableau.index, List.getD_eq_getElem?_getD,
    List.getElem?_replicate]
  split <;> rfl

theorem Tableau.new_row_count (R C : Nat) : (Tableau.new R C).row_count = R := rfl

theorem Tableau.new_column_count (R C : Nat) : (Tableau.new R C).column_count = C := rfl

theorem Tableau.set_spec {t : Tableau} {r c : Nat} (v : ℚ) (hwf : t.WF)
    (hr : r < t.row_count) (hc : c < t.column_count) :
    ∃ t', t.set r c v = Except.ok t' ∧
      t'.row_count = t.row_count ∧ t'.column_count = t.column_count ∧ t'.WF ∧
      t'.getD r c = v ∧
      ∀ r' c', c' < t.column_count → (r ≠ r' ∨ c ≠ c') → t'.getD r' c' = t.getD r' c' := by
  refine ⟨Tableau.mk t.row_count t.column_count (t.data.set (t.index r c) v), ?_, rfl, rfl, ?_, ?_, ?_⟩
  · simp only [Tableau.set, ge_iff_le]
    rw [if_neg (by omega), if_neg (by omega)]
  · simp [Tableau.WF, List.length_set] at hwf ⊢
    exact hwf
  · simp only [Tableau.getD, Tableau.index, List.getD_eq_getElem?_getD]
    rw [List.getElem?_set_eq_of_lt]
    · rfl
    · rw [hwf]
      exact index_lt_of_lt hr hc
  · intro r' c' hc' hne
    simp only [Tableau.getD, Tableau.index, List.getD_eq_getElem?_getD]
    rw [List.getElem?_set_ne]
    intro heq
    rcases index_inj hc hc' heq with ⟨h1, h2⟩
    rcases hne with h | h
    · exact h h1
    · exact h h2
theorem findIdx?_some_lt {α : Type} (p : α → Bool) :
    ∀ (l : List α) (j : Nat), List.findIdx? p l = some j → j < l.length := by
  intro l
  induction l with
  | nil => intro j h; simp [List.findIdx?_nil] at h
  | cons a as ih =>
    intro j h
    rw [List.findIdx?_cons] at h
    by_cases hp : p a = true
    · rw [if_pos hp] at h
      cases h
      simp
    · rw [if_neg hp, List.findIdx?_succ] at h
      rcases Option.map_eq_some'.mp h with ⟨j', hj', rfl⟩
      have := ih j' hj'
      simp only [List.length_cons]
      omega

theorem findIdx?_beq_nodup :
    ∀ (vars : List Variable), vars.Nodup → ∀ (x : Variable) (j : Nat) (hj : j < vars.length),
      (List.findIdx? (fun v => v == x) vars = some j ↔ vars.get ⟨j, hj⟩ = x) := by
  intro vars
  induction vars with
  | nil => intro _ x j hj; simp at hj
  | cons a as ih =>
    intro hn x j hj
    rcases List.nodup_cons.mp hn with ⟨ha, has⟩
    rw [List.findIdx?_cons]
    by_cases hax : a = x
    · subst hax
      rw [if_pos (by simp)]
      cases j with
      | zero => simp
      | succ j' =>
        simp only [List.get_cons_succ]
        constructor
        · intro h
          cases h
        · intro h
          exact absurd (h ▸ as.get_mem j' _) ha
    · rw [if_neg (by simp [hax]), List.findIdx?_succ]
      cases j with
      | zero =>
        constructor
        · intro h
          rcases Option.map_eq_some'.mp h with ⟨j', _, hj'⟩
          omega
        · intro h
          exact absurd h hax
      | succ j' =>
        have hj2 : j' < as.length := by
          simp only [List.length_cons] at hj
          omega
        simp only [List.get_cons_succ]
        rw [← ih has x j' hj2]
        constructor
        · intro h
          rcases Option.map_eq_some'.mp h with ⟨k, hk, hkk⟩
          have hkj : k = j' := by omega
          exact hkj ▸ hk
        · intro h
          rw [h]
          rfl
theorem setRowTerms_spec (vars : List Variable) (mult : ℚ) :
    ∀ (terms : List LinearTerm) (t : Tableau) (row : Nat),
      t.WF → row < t.row_count → vars.length < t.column_count →
      ∃ t', setRowTerms vars mult terms t row = Except.ok t' ∧
        t'.row_count = t.row_count ∧ t'.column_count = t.column_count ∧ t'.WF ∧
        (∀ r c, c < t.column_count → r ≠ row → t'.getD r c = t.getD r c) ∧
        (∀ c, c < t.column_count →
          t'.getD row c = rowTermsCell vars mult terms c (t.getD row c)) := by
  intro terms
  induction terms with
  | nil =>
    intro t row hwf hrow hvars
    exact ⟨t, rfl, rfl, rfl, hwf, fun _ _ _ _ => rfl, fun c _ => rfl⟩
  | cons term rest ih =>
    intro t row hwf hrow hvars
    cases hidx : List.findIdx? (fun v => v == term.var) vars with
    | none =>
      rcases ih t row hwf hrow hvars with ⟨t', hok, h1, h2, h3, h4, h5⟩
      refine ⟨t', ?_, h1, h2, h3, h4, ?_⟩
      · simp only [setRowTerms, hidx]
        exact hok
      · intro c hc
        rw [h5 c hc]
        simp [rowTermsCell, hidx]
    | some j =>
      have hj : j < vars.length := findIdx?_some_lt _ vars j hidx
      have hjc : j < t.column_count := lt_trans hj hvars
      rcases Tableau.set_spec (t := t) (r := row) (c := j) (term.coefficient * mult)
        hwf hrow hjc with ⟨t1, hset, e1, e2, e3, e4, e5⟩
      rcases ih t1 row e3 (e1 ▸ hrow) (e2 ▸ hvars) with ⟨t', hok, h1, h2, h3, h4, h5⟩
      refine ⟨t', ?_, h1.trans e1, h2.trans e2, h3, ?_, ?_⟩
      · simp only [setRowTerms, hidx, hset]
        exact hok
      · intro r c hc hr
        rw [h4 r c (e2 ▸ hc) hr, e5 r c hc (Or.inl (Ne.symm hr))]
      · intro c hc
        rw [h5 c (e2 ▸ hc)]
        by_cases hcj : c = j
        · subst hcj
          rw [e4]
          simp [rowTermsCell, hidx]
        · rw [e5 row c hc (Or.inr (fun h => hcj h.symm))]
          simp [rowTermsCell, hidx, hcj, Ne.symm hcj]
theorem setConstraintRows_spec (vars : List Variable) (ncols : Nat) :
    ∀ (cs : List Constraint) (t : Tableau) (i : Nat),
      t.WF → i + cs.length < t.row_count → vars.length + 1 = t.column_count →
      ncols = t.column_count →
      ∃ t', setConstraintRows vars ncols cs t i = Except.ok t' ∧
        t'.row_count = t.row_count ∧ t'.column_count = t.column_count ∧ t'.WF ∧
        (∀ r c, c < t.column_count → (r < i ∨ i + cs.length ≤ r) →
          t'.getD r c = t.getD r c) ∧
        (∀ k, (hk : k < cs.length) →
          (∀ c, c < vars.length →
            t'.getD (i + k) c =
              rowTermsCell vars (relationMultiplier (cs.get ⟨k, hk⟩).relation)
                (cs.get ⟨k, hk⟩).expression.terms c (t.getD (i + k) c)) ∧
          t'.getD (i + k) (t.column_count - 1) = (cs.get ⟨k, hk⟩).rhs) := by
  intro cs
  induction cs with
  | nil =>
    intro t i hwf hlen hcols hn
    exact ⟨t, rfl, rfl, rfl, hwf, fun _ _ _ _ => rfl, fun k hk => absurd hk (by simp)⟩
  | cons c0 rest ih =>
    intro t i hwf hlen hcols hn
    have hi : i < t.row_count := by
      simp only [List.length_cons] at hlen
      omega
    have hvars : vars.length < t.column_count := by omega
    rcases setRowTerms_spec vars (relationMultiplier c0.relation) c0.expression.terms t i
      hwf hi hvars with ⟨t1, hok1, a1, a2, a3, a4, a5⟩
    have hC1 : ncols - 1 < t1.column_count := by omega
    rcases Tableau.set_spec (t := t1) (r := i) (c := ncols - 1) c0.rhs
      a3 (a1 ▸ hi) hC1 with ⟨t2, hset, b1, b2, b3, b4, b5⟩
    have hlen2 : (i + 1) + rest.length < t2.row_count := by
      rw [b1, a1]
      simp only [List.length_cons] at hlen
      omega
    rcases ih t2 (i + 1) b3 hlen2 (by omega) (by omega) with ⟨t', hok, d1, d2, d3, d4, d5⟩
    have hCt2 : t2.column_count = t.column_count := b2.trans a2
    have hct1 : ncols - 1 = t.column_count - 1 := by omega
    refine ⟨t', ?_, (d1.trans b1).trans a1, (d2.trans b2).trans a2, d3, ?_, ?_⟩
    · simp only [setConstraintRows, hok1, hset]
      exact hok
    · intro r c hc hr
      have hri : r ≠ i := by
        rcases hr with h | h
        · omega
        · simp only [List.length_cons] at h
          omega
      rw [d4 r c (hCt2 ▸ hc) ?side, b5 r c (a2 ▸ hc) (Or.inl (Ne.symm hri)), a4 r c hc hri]
      case side =>
        rcases hr with h | h
        · exact Or.inl (by omega)
        · simp only [List.length_cons] at h
          exact Or.inr (by omega)
    · intro k hk
      cases k with
      | zero =>
        constructor
        · intro c hc
          have hcC : c < t.column_count := by omega
          have hcne : ncols - 1 ≠ c := by omega
          rw [Nat.add_zero]
          rw [d4 i c (hCt2 ▸ hcC) (Or.inl (by omega)),
            b5 i c (a2 ▸ hcC) (Or.inr hcne), a5 c hcC]
          rfl
        · rw [Nat.add_zero]
          have hC : t.column_count - 1 < t.column_count := by omega
          rw [d4 i (t.column_count - 1) (hCt2 ▸ hC) (Or.inl (by omega)), ← hct1, b4]
          rfl
      | succ k' =>
        have hk' : k' < rest.length := by
          simp only [List.length_cons] at hk
          omega
        have hrow : i + (k' + 1) = (i + 1) + k' := by omega
        rcases d5 k' hk' with ⟨e1, e2⟩
        constructor
        · intro c hc
          have hcC : c < t.column_count := by omega
          have hne : (i + 1) + k' ≠ i := by omega
          rw [hrow, e1 c hc, b5 _ c (a2 ▸ hcC) (Or.inl (Ne.symm hne)),
            a4 _ c hcC hne]
          rfl
        · have hC : t.column_count - 1 < t.column_count := by omega
          have hne : (i + 1) + k' ≠ i := by omega
          rw [hrow]
          rw [show t.column_count - 1 = t2.column_count - 1 by omega] at *
          rw [e2]
          rfl
theorem from_problem_spec (p : Problem) :
    ∃ t, Tableau.from_problem p = Except.ok t ∧
      t.row_count = p.constraints.length + 1 ∧
      t.column_count = p.vars.length + 1 ∧
      (∀ k, (hk : k < p.constraints.length) →
        (∀ c, c < p.vars.length →
          t.getD k c =
            rowTermsCell p.vars (relationMultiplier (p.constraints.get ⟨k, hk⟩).relation)
              (p.constraints.get ⟨k, hk⟩).expression.terms c 0) ∧
        t.getD k p.vars.length = (p.constraints.get ⟨k, hk⟩).rhs) ∧
      (∀ c, c < p.vars.length →
        t.getD p.constraints.length c =
          rowTermsCell p.vars (-1 * objectiveMultiplier p.objective.objective_type)
            p.objective.expression.terms c 0) ∧
      t.getD p.constraints.length p.vars.length = 0 := by
  set R := p.constraints.length + 1 with hR
  set C := p.vars.length + 1 with hC
  have h0wf : (Tableau.new R C).WF := Tableau.new_WF R C
  have h0r : (Tableau.new R C).row_count = R := rfl
  have h0c : (Tableau.new R C).column_count = C := rfl
  rcases setConstraintRows_spec p.vars C p.constraints (Tableau.new R C) 0
    h0wf (by omega) (by omega) (by omega) with ⟨t1, hok1, a1, a2, a3, a4, a5⟩
  rcases setRowTerms_spec p.vars (-1 * objectiveMultiplier p.objective.objective_type)
    p.objective.expression.terms t1 (R - 1) a3 (by omega) (by omega)
    with ⟨t2, hok2, b1, b2, b3, b4, b5⟩
  have hlast : R - 1 = p.constraints.length := by omega
  have hCm1 : C - 1 = p.vars.length := by omega
  rcases Tableau.set_spec (t := t2) (r := R - 1) (c := C - 1) 0 b3 (by omega) (by omega)
    with ⟨t3, hset, c1, c2, c3, c4, c5⟩
  have hfin : Tableau.from_problem p = Except.ok t3 := by
    simp only [Tableau.from_problem, ← hR, ← hC, hok1, bind, Except.bind]
    rw [hok2]
    exact hset
  refine ⟨t3, hfin, by omega, by omega, ?_, ?_, ?_⟩
  · intro k hk
    have hkR : k < R - 1 := by omega
    have hkne : k ≠ R - 1 := by omega
    constructor
    · intro c hc
      have hcC : c < C := by omega
      rw [c5 k c (by omega) (Or.inl (by omega)), b4 k c (by omega) hkne]
      rcases a5 k (by omega) with ⟨e1, e2⟩
      rw [show (0:Nat) + k = k by omega] at e1 e2
      rw [e1 c hc, Tableau.new_getD]
    · have : p.vars.length = C - 1 := by omega
      rw [this]
      rw [c5 k (C - 1) (by omega) (Or.inl (by omega)), b4 k (C - 1) (by omega) hkne]
      rcases a5 k (by omega) with ⟨e1, e2⟩
      rw [show (0:Nat) + k = k by omega] at e1 e2
      rw [h0c] at e2
      exact e2
  · intro c hc
    have hcC : c < C := by omega
    have hcne : C - 1 ≠ c := by omega
    rw [show p.constraints.length = R - 1 by omega]
    rw [c5 (R - 1) c (by omega) (Or.inr hcne), b5 c (by omega)]
    rw [a4 (R - 1) c (by omega) (Or.inr (by omega)), Tableau.new_getD]
  · rw [show p.constraints.length = R - 1 by omega, show p.vars.length = C - 1 by omega]
    exact c4
theorem rowTermsCell_eq_lastCoeffOn (vars : List Variable) (hn : vars.Nodup) (mult : ℚ) :
    ∀ (terms : List LinearTerm) (j : Nat) (hj : j < vars.length) (old : ℚ),
      rowTermsCell vars mult terms j (old * mult) =
        lastCoeffOn terms (vars.get ⟨j, hj⟩) old * mult := by
  intro terms
  induction terms with
  | nil => intro j hj old; rfl
  | cons term rest ih =>
    intro j hj old
    simp only [rowTermsCell, lastCoeffOn]
    by_cases h : vars.get ⟨j, hj⟩ = term.var
    · rw [if_pos ((findIdx?_beq_nodup vars hn term.var j hj).mpr h),
        if_pos h.symm]
      exact ih j hj term.coefficient
    · rw [if_neg (fun hc => h ((findIdx?_beq_nodup vars hn term.var j hj).mp hc)),
        if_neg (fun hc => h hc.symm)]
      exact ih j hj old

theorem is_feasible_iff (t : Tableau) :
    t.is_feasible = true ↔
      (t.is_empty = false ∧
        ∀ r, r < t.row_count → 0 ≤ t.getD r (t.column_count - 1)) := by
  unfold Tableau.is_feasible
  cases h : t.is_empty with
  | true => simp [h]
  | false =>
    simp only [h, if_neg Bool.false_ne_true, Bool.not_eq_true]
    rw [List.all_eq_true]
    constructor
    · intro hall
      refine ⟨by simp, fun r hr => ?_⟩
      have := hall r (List.mem_range.mpr hr)
      simp only [Bool.not_eq_true', decide_eq_false_iff_not, not_lt] at this
      exact this
    · intro ⟨_, hall⟩ r hr
      simp only [Bool.not_eq_true', decide_eq_false_iff_not, not_lt]
      exact hall r (List.mem_range.mp hr)

theorem is_optimal_iff (t : Tableau) :
    t.is_optimal = true ↔
      (t.is_empty = false ∧
        ∀ c, c < t.column_count → 0 ≤ t.getD (t.row_count - 1) c) := by
  unfold Tableau.is_optimal
  cases h : t.is_empty with
  | true => simp [h]
  | false =>
    simp only [h, if_neg Bool.false_ne_true, Bool.not_eq_true]
    rw [List.all_eq_true]
    constructor
    · intro hall
      refine ⟨by simp, fun c hc => ?_⟩
      have := hall c (List.mem_range.mpr hc)
      simp only [Bool.not_eq_true', decide_eq_false_iff_not, not_lt] at this
      exact this
    · intro ⟨_, hall⟩ c hc
      simp only [Bool.not_eq_true', decide_eq_false_iff_not, not_lt]
      exact hall c (List.mem_range.mp hc)
theorem pivot_getD (t : Tableau) (row col r c : Nat)
    (hr : r < t.row_count) (hc : c < t.column_count) :
    (t.pivot row col).getD r c =
      if r = row then t.getD row c / t.getD row col
      else t.getD r c - t.getD r col * (t.getD row c / t.getD row col) := by
  have hC : 0 < t.column_count := by omega
  have hdiv : (r * t.column_count + c) / t.column_count = r := by
    rw [Nat.mul_comm r t.column_count, Nat.mul_add_div hC, Nat.div_eq_of_lt hc]
    omega
  have hmod : (r * t.column_count + c) % t.column_count = c := by
    rw [Nat.mul_comm r t.column_count, Nat.mul_add_mod, Nat.mod_eq_of_lt hc]
  have hlt : r * t.column_count + c < t.row_count * t.column_count :=
    index_lt_of_lt hr hc
  simp only [Tableau.pivot, Tableau.getD, Tableau.index, List.getD_eq_getElem?_getD,
    List.getElem?_map, List.getElem?_range, hlt, if_pos hlt]
  simp only [Option.map_some', Option.getD_some, hdiv, hmod]

theorem pivotBasis_getD (basis : List Nat) (row col : Nat) (h : row < basis.length) :
    (pivotBasis basis row col).getD row 0 = col := by
  simp only [pivotBasis, List.getD_eq_getElem?_getD]
  rw [List.getElem?_set_eq_of_lt _ h]
  rfl
/-- C1, counterexample: for the problem `maximize x subject to x <= 1` (one
original variable, one `<=` constraint, hence one slack variable under the
claim), the claim predicts `column_count = 1 + 1 + 1 = 3`, but the tableau
produced by `Tableau::from_problem` has `column_count = 2`: no slack column
is appended. -/
theorem c1_counterexample :
    (Tableau.from_problem exC1).toOption.map Tableau.column_count = some 2 ∧
      (2 : Nat) ≠ 1 + 1 + 1 := by
  constructor
  · decide
  · decide

/-- C1, amended: `Tableau::from_problem` appends no auxiliary columns at
all — no slack, surplus, or artificial variable exists for any relation.
For every problem the resulting tableau has `row_count = constraints + 1`
and `column_count = original variables + 1`. -/
theorem c1_theorem (p : Problem) :
    ∃ t, Tableau.from_problem p = Except.ok t ∧
      t.row_count = p.constraints.length + 1 ∧
      t.column_count = p.vars.length + 1 := by
  rcases from_problem_spec p with ⟨t, hok, h1, h2, _⟩
  exact ⟨t, hok, h1, h2⟩

/-- C2: for every tableau and every in-bounds pair `(row, col)` with
`matrix[row][col] ≠ 0`, after `pivot(row, col)` the pivot column is the
identity column for `row` — entry `1` at the pivot row and `0` in every
other row, the objective row included — and the basis entry of `row`
becomes `col`.  (`Tableau.pivot` is modelled from spec §4.3; the repository
contains no pivot implementation.) -/
theorem c2_theorem (t : Tableau) (basis : List Nat) (row col : Nat)
    (hrow : row < t.row_count) (hcol : col < t.column_count)
    (hb : basis.length = t.row_count) (hnz : t.getD row col ≠ 0) :
    (t.pivot row col).getD row col = 1 ∧
    (∀ r, r < t.row_count → r ≠ row → (t.pivot row col).getD r col = 0) ∧
    (pivotBasis basis row col).getD row 0 = col := by
  refine ⟨?_, ?_, pivotBasis_getD basis row col (hb ▸ hrow)⟩
  · rw [pivot_getD t row col row col hrow hcol, if_pos rfl, div_self hnz]
  · intro r hr hne
    rw [pivot_getD t row col r col hr hcol, if_neg hne, div_self hnz]
    ring

/-- C2, witness: a concrete pivot on the tableau `[[2, 4], [1, 3]]` at
`(0, 0)` with basis `[0, 1]`. -/
theorem c2_witness :
    (exT2.pivot 0 0).getD 0 0 = 1 ∧ (exT2.pivot 0 0).getD 1 0 = 0 ∧
      (pivotBasis [0, 1] 0 0).getD 0 0 = 0 := by
  obtain ⟨h1, h2, h3⟩ := c2_theorem exT2 [0, 1] 0 0 (by decide) (by decide)
    (by decide) (by decide)
  exact ⟨h1, h2 1 (by decide) one_ne_zero, h3⟩

/-- C3, counterexample: for the constraint `x <= -1` the initial tableau's
constraint-row rhs entry is `-1 < 0`: the row is not multiplied by `-1`
and not treated as `>=`. -/
theorem c3_counterexample :
    (Tableau.from_problem exC3).toOption.map
        (fun t => t.getD 0 (t.column_count - 1)) = some (-1) ∧
      ¬ ((0 : ℚ) ≤ -1) := by
  constructor
  · decide
  · norm_num

/-- C3, amended: the right-hand side of every constraint is copied into the
tableau unchanged — there is no sign normalization, so a `<=`/`<` constraint
with negative rhs produces a negative rhs entry (and `>=`/`>` rows get only
their coefficients negated, not their rhs). -/
theorem c3_theorem (p : Problem) (k : Nat) (hk : k < p.constraints.length) :
    ∃ t, Tableau.from_problem p = Except.ok t ∧
      t.getD k (t.column_count - 1) = (p.constraints.get ⟨k, hk⟩).rhs := by
  rcases from_problem_spec p with ⟨t, hok, _, h2, h3, _⟩
  refine ⟨t, hok, ?_⟩
  have := (h3 k hk).2
  rw [h2]
  simpa using this

/-- C3, witness: the rhs `-1` of `x <= -1` is copied unchanged into the
tableau. -/
theorem c3_witness :
    ∃ t, Tableau.from_problem exC3 = Except.ok t ∧
      t.getD 0 (t.column_count - 1) = -1 := by
  obtain ⟨t, h1, h2⟩ := c3_theorem exC3 0 (by decide)
  refine ⟨t, h1, ?_⟩
  rw [h2]
  decide

/-- C4, counterexample: in the tableau `[[0, 1], [0, -1]]` every constraint
row (row 0, the only row other than the objective row) has rhs `1 ≥ 0`, yet
`is_feasible` returns false, because the source's loop also inspects the
objective row's rhs `-1`. -/
theorem c4_counterexample :
    exT4.is_feasible = false ∧
      (0 : ℚ) ≤ exT4.getD 0 (exT4.column_count - 1) := by
  constructor
  · decide
  · decide

/-- C4, amended: `is_feasible` returns true iff the tableau is non-empty and
the rhs entry of every row — the objective row included — is `≥ 0`. -/
theorem c4_theorem (t : Tableau) :
    t.is_feasible = true ↔
      (t.is_empty = false ∧
        ∀ r, r < t.row_count → 0 ≤ t.getD r (t.column_count - 1)) :=
  is_feasible_iff t

/-- C5, counterexample: in the one-row tableau `[[0, -1]]` every objective
row entry other than the rhs is `0 ≥ 0`, yet `is_optimal` returns false,
because the source's loop also inspects the rhs entry `-1`. -/
theorem c5_counterexample :
    exT5.is_optimal = false ∧ (0 : ℚ) ≤ exT5.getD (exT5.row_count - 1) 0 := by
  constructor
  · decide
  · decide

/-- C5, amended: `is_optimal` returns true iff the tableau is non-empty and
every entry of the objective row — the rhs entry included — is `≥ 0`. -/
theorem c5_theorem (t : Tableau) :
    t.is_optimal = true ↔
      (t.is_empty = false ∧
        ∀ c, c < t.column_count → 0 ≤ t.getD (t.row_count - 1) c) :=
  is_optimal_iff t

/-- C6: evaluation at the failing input.  For the constraint
`1*x + 2*x <= 3` the tableau entry for `x` is `2` — the last term's
coefficient, written by the second `tableau.set`, overwriting the first —
and not the sum `3` required by the claim and by spec §3. -/
theorem c6_theorem :
    (Tableau.from_problem exC6).toOption.map (fun t => t.getD 0 0) = some 2 ∧
      (2 : ℚ) ≠ 1 + 2 := by
  constructor
  · norm_num [Tableau.from_problem, setConstraintRows, setRowTerms, Tableau.set,
      Tableau.new, Tableau.index, Tableau.getD, relationMultiplier,
      objectiveMultiplier, exC6, vx, List.findIdx?_cons, List.findIdx?_nil,
      List.replicate, Except.toOption, Bind.bind, Except.bind]
  · norm_num

/-- C7: the variable order produced by `Problem::new` is not a function of
the constructor's inputs.  The source iterates a `std::collections::HashSet`
(hash order, randomized per instance); the embedding therefore takes the
iteration order as a parameter.  For the input `x + y <= 2`, maximize `x`,
both `[x, y]` and `[y, x]` are possible iteration orders of the same unique
variable set, and they give different `variables` lists, hence different
variable-to-column mappings. -/
theorem c7_theorem :
    ∃ o1 o2 : List Variable,
      IsHashIterationOrder exC7cs exC7obj o1 ∧
      IsHashIterationOrder exC7cs exC7obj o2 ∧
      (Problem.new exC7cs exC7obj o1).vars ≠ (Problem.new exC7cs exC7obj o2).vars := by
  refine ⟨[vx, vy], [vy, vx], ⟨by decide, ?_⟩, ⟨by decide, ?_⟩, by decide⟩ <;>
  · intro v
    simp only [occursIn, exC7cs, exC7obj, List.any_cons, List.any_nil,
      Bool.or_eq_true, beq_iff_eq, List.mem_cons, List.not_mem_nil, or_false,
      Bool.false_eq_true]
    constructor
    · rintro (rfl | rfl) <;> simp
    · rintro ((rfl | rfl | h) | (rfl | h)) <;> simp_all

/-- C8, counterexample: for the objective `maximize 1*x + 2*x` the
maximize-normalized coefficient of `x` is the sum `3`, so the claim predicts
the objective-row entry `-3`; the code writes `-2` (negated last term
only). -/
theorem c8_counterexample :
    (Tableau.from_problem exC8).toOption.map (fun t => t.getD 0 0) = some (-2) ∧
      ((-2 : ℚ) ≠ -3) := by
  constructor
  · norm_num [Tableau.from_problem, setConstraintRows, setRowTerms, Tableau.set,
      Tableau.new, Tableau.index, Tableau.getD, relationMultiplier,
      objectiveMultiplier, exC8, vx, List.findIdx?_cons, List.findIdx?_nil,
      List.replicate, Except.toOption, Bind.bind, Except.bind]
  · norm_num

/-- C8, amended: for every problem whose variable list is duplicate-free (an
invariant of `Problem::new`), the objective-row entry of original variable
`j` equals the negation of the maximize-normalization multiplier times the
coefficient of the last objective term on that variable (`0` if the variable
is absent from the objective): `-c` for Maximize and `+c` for Minimize.
The objective row's rhs entry is `0`.  No slack/surplus/artificial columns
exist, so the claim's stipulations about them are vacuous. -/
theorem c8_theorem (p : Problem) (hn : p.vars.Nodup) (j : Nat)
    (hj : j < p.vars.length) :
    ∃ t, Tableau.from_problem p = Except.ok t ∧
      t.getD p.constraints.length j =
        -(objectiveMultiplier p.objective.objective_type *
          lastCoeffOn p.objective.expression.terms (p.vars.get ⟨j, hj⟩) 0) ∧
      t.getD p.constraints.length (t.column_count - 1) = 0 := by
  rcases from_problem_spec p with ⟨t, hok, h1, h2, h3, h4, h5⟩
  refine ⟨t, hok, ?_, ?_⟩
  · rw [h4 j hj]
    have hcell := rowTermsCell_eq_lastCoeffOn p.vars hn
      (-1 * objectiveMultiplier p.objective.objective_type)
      p.objective.expression.terms j hj 0
    rw [zero_mul] at hcell
    rw [hcell]
    ring
  · rw [h2]
    simpa using h5

/-- C8, witness: for `maximize 5*x` the objective-row entry of `x` is `-5`
and the objective-row rhs entry is `0`. -/
theorem c8_witness :
    ∃ t, Tableau.from_problem exC8w = Except.ok t ∧
      t.getD 0 0 = -5 ∧ t.getD 0 (t.column_count - 1) = 0 := by
  obtain ⟨t, h1, h2, h3⟩ := c8_theorem exC8w (by decide) 0 (by decide)
  refine ⟨t, h1, ?_, h3⟩
  have h2x : t.getD 0 0 =
      -(objectiveMultiplier exC8w.objective.objective_type *
        lastCoeffOn exC8w.objective.expression.terms (exC8w.vars.get ⟨0, by decide⟩) 0) := h2
  rw [h2x]
  norm_num [exC8w, lastCoeffOn, objectiveMultiplier, vx, List.get]

/-- C9: `Tableau::from_problem` never takes its error branch — every internal
`set` call is in bounds, so the function returns `Ok` on every problem. -/
theorem c9_theorem (p : Problem) : ∃ t, Tableau.from_problem p = Except.ok t := by
  rcases from_problem_spec p with ⟨t, hok, _⟩
  exact ⟨t, hok⟩

/-- C10: on an empty tableau (`row_count = 0` or `column_count = 0`),
`is_feasible` and `is_optimal` return false and `get_objective_value`
returns `None`, even though the universally quantified definitions would
hold vacuously. -/
theorem c10_theorem (t : Tableau) (h : t.row_count = 0 ∨ t.column_count = 0) :
    t.is_feasible = false ∧ t.is_optimal = false ∧
      t.get_objective_value = none := by
  have he : t.is_empty = true := by
    simp only [Tableau.is_empty, Bool.or_eq_true, beq_iff_eq]
    exact h
  simp [Tableau.is_feasible, Tableau.is_optimal, Tableau.get_objective_value, he]

/-- C10, witness: the `0 × 3` tableau. -/
theorem c10_witness :
    (Tableau.new 0 3).is_feasible = false ∧ (Tableau.new 0 3).is_optimal = false ∧
      (Tableau.new 0 3).get_objective_value = none :=
  c10_theorem (Tableau.new 0 3) (Or.inl rfl)
